import Mathlib

/-!
Verification of the SwanSong Logbook utility (`swan_song` package): a shallow
embedding of `cli.py`, `data_store.py` and the store operations, together with
theorems settling the specified behavioral claims.

Entries are Python dicts in the source; here they are records with optional
fields for the keys that the code accesses through `dict.get`.
-/

namespace SwanSong

/-- An Entry record. Fields that the source reads via `entry.get(...)` with a
possible-missing key (`mood`, `timestamp`, `reminder`, `status`) are `Option`;
`tags` defaults to `[]` when missing, so it is a plain list. -/
structure Entry where
  title : String
  body : String
  mood : Option String
  timestamp : Option String
  tags : List String
  reminder : Option String
  status : Option String
deriving DecidableEq, Repr

/-- Python truthiness of an optional string: `None` and `""` are falsy. -/
def strTruthy : Option String → Bool
  | none => false
  | some s => !s.isEmpty

/-- The whitespace characters stripped by Python `str.strip()` (ASCII range). -/
def pyIsSpace (c : Char) : Bool :=
  c = ' ' || c = '\t' || c = '\n' || c = '\r' || c = '\x0b' || c = '\x0c'

/-- Python `str.strip()`: drop leading and trailing whitespace. -/
def pyStrip (s : String) : String :=
  String.mk (((s.toList.dropWhile pyIsSpace).reverse.dropWhile pyIsSpace).reverse)

/-- Python `str.split(",")`: split on every comma, keeping empty fragments;
the empty string yields one empty fragment. -/
def splitOnComma : List Char → List (List Char)
  | [] => [[]]
  | c :: rest =>
    if c = ',' then [] :: splitOnComma rest
    else
      match splitOnComma rest with
      | g :: gs => (c :: g) :: gs
      | [] => [[c]]

/-- Source `_normalize_tags` (cli.py): strip each comma-separated fragment and
keep the truthy (non-empty) ones. -/
def normalize_tags (raw : String) : List String :=
  (((splitOnComma raw.toList).map (fun part => pyStrip (String.mk part))).filter
    (fun s => !s.isEmpty))

/-- A single-quote character, as used by Python `repr` of a plain string. -/
def squote : String := String.singleton (Char.ofNat 39)

/-- Python `repr` of a string holding no quote, backslash or control
characters: the text wrapped in single quotes. -/
def pyRepr (s : String) : String := squote ++ s ++ squote

/-- Gregorian leap-year test, as in CPython `datetime`. -/
def isLeapYear (y : Nat) : Bool :=
  y % 4 = 0 && (y % 100 != 0 || y % 400 = 0)

/-- Days in a month of a given year. -/
def daysInMonth (y m : Nat) : Nat :=
  if m = 2 then (if isLeapYear y then 29 else 28)
  else if m = 4 || m = 6 || m = 9 || m = 11 then 30
  else 31

/-- Cumulative day count before month `m` in a non-leap year. -/
def cumDays (m : Nat) : Nat :=
  match m with
  | 1 => 0 | 2 => 31 | 3 => 59 | 4 => 90 | 5 => 120 | 6 => 151
  | 7 => 181 | 8 => 212 | 9 => 243 | 10 => 273 | 11 => 304 | 12 => 334
  | _ => 0

/-- Proleptic-Gregorian ordinal of a calendar date, as CPython
`date.toordinal()`: day 1 is 0001-01-01. Python `date` comparison and
`timedelta(days=k)` shifts coincide with `Nat` comparison and addition on
these ordinals, so a parsed date is represented by its ordinal. -/
def ymdToOrdinal (y m d : Nat) : Nat :=
  365 * (y - 1) + (y - 1) / 4 - (y - 1) / 100 + (y - 1) / 400
    + cumDays m + (if 2 < m && isLeapYear y then 1 else 0) + d

/-- Numeric value of a decimal digit character. -/
def digitVal (c : Char) : Nat := c.toNat - 48

/-- CPython `date.fromisoformat` on the `YYYY-MM-DD` format: exactly ten
characters, digits in the date positions, dashes at positions 4 and 7, and a
valid calendar date with year at least 1. Returns the date's ordinal. -/
def parseIsoDate (s : String) : Option Nat :=
  match s.toList with
  | [y1, y2, y3, y4, h1, m1, m2, h2, d1, d2] =>
    if y1.isDigit && y2.isDigit && y3.isDigit && y4.isDigit
        && h1 = '-' && m1.isDigit && m2.isDigit && h2 = '-'
        && d1.isDigit && d2.isDigit then
      let y := digitVal y1 * 1000 + digitVal y2 * 100 + digitVal y3 * 10 + digitVal y4
      let m := digitVal m1 * 10 + digitVal m2
      let d := digitVal d1 * 10 + digitVal d2
      if 1 ≤ y && 1 ≤ m && m ≤ 12 && 1 ≤ d && d ≤ daysInMonth y m then
        some (ymdToOrdinal y m d)
      else none
    else none
  | _ => none

/-- Source `_parse_date` (cli.py): falsy input means no date; otherwise parse
as `YYYY-MM-DD`, raising `ValueError` with a message naming the value and the
expected format on failure. -/
def parse_date (value : Option String) : Except String (Option Nat) :=
  if !strTruthy value then .ok none
  else
    let v := value.getD ""
    match parseIsoDate v with
    | some d => .ok (some d)
    | none => .error ("date must be in YYYY-MM-DD form, got " ++ pyRepr v)

/-- First ten characters of a string, as Python `s[:10]`. -/
def take10 (s : String) : String := String.mk (s.toList.take 10)

/-- The parsed date of an entry, following the guard
`e.get("timestamp") and date.fromisoformat(e["timestamp"][:10])`: a falsy
timestamp yields no date. -/
def entryDate (e : Entry) : Option Nat :=
  if strTruthy e.timestamp then parseIsoDate (take10 (e.timestamp.getD ""))
  else none

/-- Whether an entry's date exists and satisfies a comparison. -/
def datePass (cmp : Nat → Bool) (e : Entry) : Bool :=
  match entryDate e with
  | some x => cmp x
  | none => false

/-- The `list` command's argument namespace (cli.py `_build_parser`):
`--mood`, `--tag`, `--since`, `--until` default to absent; `--limit` is an
`int` defaulting to 10. -/
structure ListArgs where
  mood : Option String
  tag : Option String
  since : Option String
  untilArg : Option String
  limit : Int
deriving DecidableEq, Repr

/-- One date-range pass of `_filter_entries`: keep entries with a truthy
timestamp whose first-ten-character date satisfies `cmp`; entries with a falsy
timestamp fail the guard and are dropped; an unparseable date portion raises
`ValueError` (fatal), aborting the comprehension. -/
def dateFilter (cmp : Nat → Bool) : List Entry → Except String (List Entry)
  | [] => .ok []
  | e :: rest =>
    if strTruthy e.timestamp then
      match parseIsoDate (take10 (e.timestamp.getD "")) with
      | none =>
        .error ("Invalid isoformat string: " ++ pyRepr (take10 (e.timestamp.getD "")))
      | some x => do
        let tail ← dateFilter cmp rest
        if cmp x then pure (e :: tail) else pure tail
    else dateFilter cmp rest

/-- Python slice `xs[:k]` for an `int` bound: a nonnegative bound takes that
many elements from the front; a negative bound drops that many from the end. -/
def pySliceTo (k : Int) (xs : List Entry) : List Entry :=
  if 0 ≤ k then xs.take k.toNat else xs.take (xs.length - (-k).toNat)

/-- Source `_filter_entries` (cli.py): successively filter by mood equality,
tag membership, inclusive since/until date range on the timestamp's date
portion, then slice to the limit when the limit is truthy (nonzero). -/
def filter_entries (es : List Entry) (args : ListArgs) : Except String (List Entry) := do
  let f1 := if strTruthy args.mood then es.filter (fun e => e.mood == args.mood) else es
  let f2 :=
    if strTruthy args.tag then f1.filter (fun e => e.tags.contains (args.tag.getD ""))
    else f1
  let sinceD ← parse_date args.since
  let f3 ← match sinceD with
    | some d => dateFilter (fun x => decide (d ≤ x)) f2
    | none => pure f2
  let untilD ← parse_date args.untilArg
  let f4 ← match untilD with
    | some d => dateFilter (fun x => decide (x ≤ d)) f3
    | none => pure f3
  pure (if args.limit ≠ 0 then pySliceTo args.limit f4 else f4)

/-- Combined selection predicate of `_filter_entries`, stated from the spec:
mood equality, tag membership and the inclusive date range, each vacuous when
its criterion is absent. -/
def matchesCriteria (moodC tagC : Option String) (sinceD untilD : Option Nat)
    (e : Entry) : Bool :=
  (!strTruthy moodC || e.mood == moodC)
    && (!strTruthy tagC || e.tags.contains (tagC.getD ""))
    && (match sinceD with
        | some d => datePass (fun x => decide (d ≤ x)) e
        | none => true)
    && (match untilD with
        | some d => datePass (fun x => decide (x ≤ d)) e
        | none => true)

/-- One iteration of the `_summarize_moods` loop: bump the count stored under
a key of the (insertion-ordered) mapping, appending a fresh key at the end. -/
def bumpMood : List (String × Nat) → String → List (String × Nat)
  | [], m => [(m, 1)]
  | (k, v) :: rest, m =>
    if k = m then (k, v + 1) :: rest else (k, v) :: bumpMood rest m

/-- Source `_summarize_moods` (cli.py): count entries per mood label, with a
missing mood read as `"neutral"`; the Python dict is an insertion-ordered
association list. -/
def summarize_moods (es : List Entry) : List (String × Nat) :=
  es.foldl (fun acc e => bumpMood acc (e.mood.getD "neutral")) []

/-- Count held under a mood key of the summary, zero when absent. -/
def moodCount (summary : List (String × Nat)) (m : String) : Nat :=
  (summary.lookup m).getD 0

/-- Whether a reminder ordinal falls inside the lookahead window
(`due_window is None or reminder_date <= due_window`). -/
def withinWindow (r : Nat) (today : Nat) (days : Option Int) : Bool :=
  match days with
  | none => true
  | some d => decide ((r : Int) ≤ (today : Int) + d)

/-- Classification loop of `_plan_reminders` (cli.py): skip entries with a
falsy reminder; parse the reminder (`ValueError` is fatal); a reminder before
today is overdue; otherwise it is upcoming when no window is set or the
reminder is within the window; later reminders fall in neither list. -/
def plan_reminders : List Entry → Nat → Option Int → Except String (List Entry × List Entry)
  | [], _, _ => .ok ([], [])
  | e :: rest, today, days =>
    if strTruthy e.reminder then
      match parseIsoDate (e.reminder.getD "") with
      | none => .error ("Invalid isoformat string: " ++ pyRepr (e.reminder.getD ""))
      | some r => do
        let (ov, up) ← plan_reminders rest today days
        if r < today then pure (e :: ov, up)
        else if withinWindow r today days then pure (ov, e :: up)
        else pure (ov, up)
    else plan_reminders rest today days

/-- Overdue test of the reminder partition, stated from the spec: a present,
parsed reminder date strictly before today. -/
def reminderOverdue (today : Nat) (e : Entry) : Bool :=
  strTruthy e.reminder
    && (match parseIsoDate (e.reminder.getD "") with
        | some r => decide (r < today)
        | none => false)

/-- Upcoming test of the reminder partition, stated from the spec: a present,
parsed reminder date on or after today and within the lookahead window. -/
def reminderUpcoming (today : Nat) (days : Option Int) (e : Entry) : Bool :=
  strTruthy e.reminder
    && (match parseIsoDate (e.reminder.getD "") with
        | some r => !decide (r < today) && withinWindow r today days
        | none => false)

/-- Source `_build_entry_payload` (cli.py): the timestamp is
`timestamp or datetime.utcnow().isoformat()` — the explicit timestamp when
truthy, otherwise the current time, passed here as `now`; tags are normalized;
the reminder is stored as given, unvalidated; no status key is set. -/
def build_entry_payload (title body mood tags : String) (remind : Option String)
    (timestamp : Option String) (now : String) : Entry :=
  { title := title
    body := body
    mood := some mood
    timestamp := some (match timestamp with
      | some t => if t.isEmpty then now else t
      | none => now)
    tags := normalize_tags tags
    reminder := remind
    status := none }

/-- State of the backing `logbook.json` file: absent, present but not valid
JSON, or a parsed entry collection. -/
inductive FileState where
  | missing
  | corrupt
  | content (entries : List Entry)
deriving DecidableEq, Repr

/-- Source `_ensure_logbook` (data_store.py): create the file holding an empty
collection when missing; leave an existing file alone. -/
def ensure_logbook : FileState → FileState
  | .missing => .content []
  | st => st

/-- Sort key used by `load_entries`: `e.get("timestamp", "")`. -/
def entryKey (e : Entry) : String := e.timestamp.getD ""

/-- Timestamp-descending order between entries (later keys first). -/
def keyDesc (a b : Entry) : Prop := entryKey b ≤ entryKey a

instance : DecidableRel keyDesc :=
  fun a b => inferInstanceAs (Decidable (entryKey b ≤ entryKey a))

instance : IsTotal Entry keyDesc :=
  ⟨fun a b => le_total (entryKey b) (entryKey a)⟩

instance : IsTrans Entry keyDesc :=
  ⟨fun _ _ _ hab hbc => le_trans hbc hab⟩

/-- Python `sorted(raw, key=..., reverse=True)`: stable descending sort by the
timestamp key, modelled by insertion sort on `keyDesc`. -/
def sortDesc (es : List Entry) : List Entry := List.insertionSort keyDesc es

/-- Source `load_entries` (data_store.py): ensure the file exists, parse it
(`StorageCorruption` when unparseable, uncaught), return the entries sorted by
timestamp descending. -/
def load_entries (st : FileState) : Except String (List Entry) :=
  match ensure_logbook st with
  | .missing => .ok []
  | .corrupt => .error "StorageCorruption"
  | .content l => .ok (sortDesc l)

/-- Source `save_entries` (data_store.py): overwrite the file with the given
collection. -/
def save_entries (es : List Entry) (_st : FileState) : FileState := .content es

/-- Source `append_entry` (data_store.py): load, insert at the front, save,
return the entry. -/
def append_entry (e : Entry) (st : FileState) : Except String (Entry × FileState) := do
  let es ← load_entries st
  pure (e, save_entries (e :: es) st)

/-- The `add` command path of `main` (cli.py): build the payload from the
flags (no explicit timestamp) and append it to the store. -/
def add_command (title body mood tags : String) (remind : Option String)
    (now : String) (st : FileState) : Except String FileState := do
  let entry := build_entry_payload title body mood tags remind none now
  let r ← append_entry entry st
  pure r.2

/-- Modelled from the spec: the scan inside the store operation
`set_status(timestamp, status)` — the operation is imported by the CLI as
`set_entry_status` but its defining store code is absent from the repository
snapshot. Per the spec it scans for the first entry whose `timestamp` field
equals the given value and sets that entry's `status`, reporting whether a
match was found. -/
def scanSetStatus (ts status : String) : List Entry → Bool × List Entry
  | [] => (false, [])
  | e :: rest =>
    if e.timestamp == some ts then (true, { e with status := some status } :: rest)
    else
      let r := scanSetStatus ts status rest
      (r.1, e :: r.2)

/-- Modelled from the spec: `set_status(timestamp, status)` loads all entries,
scans for the first entry whose `timestamp` equals the given value, sets its
`status`, saves the full collection, and returns whether a match was found. -/
def set_entry_status (ts status : String) (st : FileState) :
    Except String (Bool × FileState) := do
  let es ← load_entries st
  let r := scanSetStatus ts status es
  pure (r.1, save_entries r.2 st)

/-- Whether an `Except` computation succeeded. -/
def isOkB : Except String (List Entry) → Bool
  | .ok _ => true
  | .error _ => false

/-- Sample entry used to instantiate store theorems at concrete inputs. -/
def sampleEntry : Entry :=
  { title := "Checkpoint"
    body := "Need to rewire the cache"
    mood := some "thrilled"
    timestamp := some "2023-03-23T05:00:00"
    tags := ["cache"]
    reminder := none
    status := none }

/- Helper lemmas. -/

theorem dropWhile_idem (p : α → Bool) (l : List α) :
    (l.dropWhile p).dropWhile p = l.dropWhile p := by
  induction l with
  | nil => rfl
  | cons a t ih =>
    by_cases h : p a = true
    · simp [List.dropWhile, h, ih]
    · simp only [Bool.not_eq_true] at h
      simp [List.dropWhile, h]

theorem head_false_of_dropWhile_self (p : α → Bool) (a : α) (t : List α)
    (h : (a :: t).dropWhile p = a :: t) : p a = false := by
  by_cases hp : p a = true
  · exfalso
    simp only [List.dropWhile, hp] at h
    have hlen := congrArg List.length h
    have hle : (t.dropWhile p).length ≤ t.length :=
      (List.dropWhile_suffix p).length_le
    simp only [List.length_cons] at hlen
    omega
  · simpa using hp

theorem pyStrip_idem (s : String) : pyStrip (pyStrip s) = pyStrip s := by
  unfold pyStrip
  have hmk : ∀ l : List Char, (String.mk l).toList = l := fun _ => rfl
  rw [hmk]
  set l1 := s.toList.dropWhile pyIsSpace with hl1def
  set m := l1.reverse.dropWhile pyIsSpace with hmdef
  have hA : m.reverse.dropWhile pyIsSpace = m.reverse := by
    cases hl2 : m.reverse with
    | nil => rfl
    | cons a t =>
      obtain ⟨u, hu⟩ := List.dropWhile_suffix (l := l1.reverse) pyIsSpace
      have hl1eq : l1 = m.reverse ++ u.reverse := by
        have h2 := congrArg List.reverse hu
        simp only [List.reverse_append, List.reverse_reverse] at h2
        exact h2.symm
      have hidem : l1.dropWhile pyIsSpace = l1 := by
        rw [hl1def]; exact dropWhile_idem _ _
      rw [hl2] at hl1eq
      rw [List.cons_append] at hl1eq
      have hpa : pyIsSpace a = false := by
        apply head_false_of_dropWhile_self pyIsSpace a (t ++ u.reverse)
        rw [← hl1eq]; exact hidem
      simp [List.dropWhile, hpa]
  rw [hA, List.reverse_reverse]
  have hB : m.dropWhile pyIsSpace = m := by
    rw [hmdef]; exact dropWhile_idem _ _
  rw [hB]

theorem string_ne_empty_of_not_isEmpty {t : String} (h : t.isEmpty = false) :
    t ≠ "" := by
  intro heq
  rw [heq] at h
  simp [String.isEmpty] at h

/-- C7: for every comma-separated tag string, tag normalization strips each
fragment's surrounding whitespace, drops empty fragments, preserves the
fragments' relative order (the result is a sublist of the stripped fragment
list) and does not deduplicate repeats; the spec's example and a
repeated-tag example evaluate as stated. -/
theorem normalize_tags_spec :
    (∀ raw : String,
      (∀ t ∈ normalize_tags raw, t ≠ "" ∧ pyStrip t = t)
        ∧ List.Sublist (normalize_tags raw)
            ((splitOnComma raw.toList).map (fun part => pyStrip (String.mk part))))
    ∧ normalize_tags "  research,api , , curiosity   " = ["research", "api", "curiosity"]
    ∧ normalize_tags "dup, dup ,other,dup" = ["dup", "dup", "other", "dup"] := by
  refine ⟨fun raw => ⟨?_, ?_⟩, by decide, by decide⟩
  · intro t ht
    unfold normalize_tags at ht
    rw [List.mem_filter] at ht
    obtain ⟨hmem, hne⟩ := ht
    rw [List.mem_map] at hmem
    obtain ⟨part, _, hpart⟩ := hmem
    constructor
    · apply string_ne_empty_of_not_isEmpty
      simpa using hne
    · rw [← hpart]
      exact pyStrip_idem _
  · exact List.filter_sublist _

/- Lookup behavior of the mood-count accumulator. -/

theorem beq_true_of_eq {a b : String} (h : a = b) : (a == b) = true :=
  beq_iff_eq.mpr h

theorem beq_false_of_ne {a b : String} (h : a ≠ b) : (a == b) = false :=
  beq_eq_false_iff_ne.mpr h

theorem lookup_bumpMood (acc : List (String × Nat)) (m q : String) :
    (bumpMood acc m).lookup q =
      if q = m then some (((acc.lookup m).getD 0) + 1) else acc.lookup q := by
  induction acc with
  | nil =>
    by_cases h : q = m
    · simp [bumpMood, List.lookup, beq_true_of_eq h, h]
    · simp [bumpMood, List.lookup, beq_false_of_ne h, h]
  | cons kv rest ih =>
    obtain ⟨k, v⟩ := kv
    by_cases hkm : k = m
    · subst hkm
      by_cases hq : q = k
      · simp [bumpMood, List.lookup, beq_true_of_eq hq, hq, beq_true_of_eq rfl]
      · simp [bumpMood, List.lookup, beq_false_of_ne hq, hq, beq_true_of_eq rfl]
    · by_cases hq : q = k
      · subst hq
        have hqm : ¬(q = m) := hkm
        simp [bumpMood, List.lookup, hkm, hqm, beq_true_of_eq rfl,
          beq_false_of_ne hkm]
      · by_cases hqm : q = m
        · subst hqm
          simp [bumpMood, List.lookup, hkm, hq, ih, beq_false_of_ne hq,
            beq_false_of_ne hkm]
        · simp [bumpMood, List.lookup, hkm, hq, ih, hqm, beq_false_of_ne hq,
            beq_false_of_ne hkm]

theorem lookup_summarize_go (es : List Entry) (acc : List (String × Nat)) (q : String) :
    (es.foldl (fun a e => bumpMood a (e.mood.getD "neutral")) acc).lookup q =
      (match acc.lookup q with
       | some v => some (v + es.countP (fun e => e.mood.getD "neutral" == q))
       | none =>
         if es.countP (fun e => e.mood.getD "neutral" == q) = 0 then none
         else some (es.countP (fun e => e.mood.getD "neutral" == q))) := by
  induction es generalizing acc with
  | nil =>
    cases h : acc.lookup q <;> simp [h]
  | cons e rest ih =>
    rw [List.foldl_cons, ih]
    rw [lookup_bumpMood]
    by_cases hq : q = e.mood.getD "neutral"
    · have hpe : (e.mood.getD "neutral" == q) = true := by simp [hq]
      rw [List.countP_cons, if_pos hpe, if_pos hq, ← hq]
      cases h : acc.lookup q <;> simp [h] <;> omega
    · have hpe : ¬((e.mood.getD "neutral" == q) = true) := by
        simp
        intro hc
        exact hq hc.symm
      rw [List.countP_cons, if_neg hq, if_neg hpe]
      cases h : acc.lookup q <;> simp [h]

/-- C8: the mood summary maps each mood label to the number of entries
carrying it (a key is absent exactly when no entry carries that label), with
entries lacking a mood counted under "neutral"; the spec's four-entry example
evaluates as stated. -/
theorem summarize_moods_spec :
    (∀ (es : List Entry) (q : String),
      moodCount (summarize_moods es) q
          = es.countP (fun e => e.mood.getD "neutral" == q)
        ∧ ((summarize_moods es).lookup q = none
            ↔ es.countP (fun e => e.mood.getD "neutral" == q) = 0))
    ∧ summarize_moods
        [⟨"", "", some "curious", none, [], none, none⟩,
         ⟨"", "", some "curious", none, [], none, none⟩,
         ⟨"", "", some "tired", none, [], none, none⟩,
         ⟨"", "", none, none, [], none, none⟩]
        = [("curious", 2), ("tired", 1), ("neutral", 1)] := by
  refine ⟨fun es q => ?_, by decide⟩
  have h := lookup_summarize_go es [] q
  simp only [List.lookup] at h
  unfold summarize_moods moodCount
  rw [h]
  by_cases hc : es.countP (fun e => e.mood.getD "neutral" == q) = 0
  · simp [hc]
  · simp [hc]

/-- C4 (amended): building an entry payload with an explicit nonempty
timestamp string preserves that exact string, and the tags field is the
trim-and-drop-empty split of the comma-separated tags argument; the current
time `now` is substituted only for an absent or empty timestamp. The spec's
example is evaluated. -/
theorem build_entry_payload_spec (title body mood tags now : String)
    (remind : Option String) (ts : String) (h : ts ≠ "") :
    (build_entry_payload title body mood tags remind (some ts) now).timestamp = some ts
    ∧ (build_entry_payload title body mood tags remind (some ts) now).tags
        = normalize_tags tags
    ∧ (build_entry_payload title body mood tags remind none now).timestamp = some now
    ∧ (build_entry_payload "title" "body" "moody" "tag1,tag2" none
        (some "2022-01-02T03:04:05") now).timestamp = some "2022-01-02T03:04:05"
    ∧ (build_entry_payload "title" "body" "moody" "tag1,tag2" none
        (some "2022-01-02T03:04:05") now).tags = ["tag1", "tag2"]
    ∧ (build_entry_payload "title" "body" "moody" "tag1,tag2" none
        (some "2022-01-02T03:04:05") now).mood = some "moody" := by
  have hemp : ts.isEmpty = false := by
    cases hv : ts.isEmpty
    · rfl
    · exact absurd (String.isEmpty_iff ts |>.mp hv) h
  refine ⟨?_, rfl, rfl, rfl, rfl, rfl⟩
  simp [build_entry_payload, hemp]

/-- Witness for C4 at the spec's concrete example input. -/
theorem build_entry_payload_spec_witness :
    (build_entry_payload "title" "body" "moody" "tag1,tag2" none
        (some "2022-01-02T03:04:05") "2024-01-01T00:00:00").timestamp
      = some "2022-01-02T03:04:05"
    ∧ (build_entry_payload "title" "body" "moody" "tag1,tag2" none
        (some "2022-01-02T03:04:05") "2024-01-01T00:00:00").tags
      = normalize_tags "tag1,tag2" :=
  ⟨(build_entry_payload_spec "title" "body" "moody" "tag1,tag2"
      "2024-01-01T00:00:00" none "2022-01-02T03:04:05" (by decide)).1,
   (build_entry_payload_spec "title" "body" "moody" "tag1,tag2"
      "2024-01-01T00:00:00" none "2022-01-02T03:04:05" (by decide)).2.1⟩

/-- Counterexample to C4 as stated: supplying the explicit (empty) timestamp
string does not preserve it — the empty string is falsy in Python, so
`timestamp or datetime.utcnow().isoformat()` substitutes the current time. -/
theorem build_entry_payload_empty_timestamp_cex :
    (build_entry_payload "title" "body" "moody" "" none (some "")
        "2024-05-06T07:08:09").timestamp = some "2024-05-06T07:08:09"
    ∧ (build_entry_payload "title" "body" "moody" "" none (some "")
        "2024-05-06T07:08:09").timestamp ≠ some "" := by
  exact ⟨rfl, by decide⟩

/- Except monad reduction helpers. -/

theorem except_bind_ok {α β : Type} (a : α) (f : α → Except String β) :
    ((Except.ok a : Except String α) >>= f) = f a := rfl

theorem except_bind_error {α β : Type} (e : String) (f : α → Except String β) :
    ((Except.error e : Except String α) >>= f) = .error e := rfl

theorem except_pure {α : Type} (a : α) :
    (pure a : Except String α) = .ok a := rfl

/- Filtering machinery. -/

theorem filter_guard (b : Bool) (p : Entry → Bool) (l : List Entry) :
    (if b then l.filter p else l) = l.filter (fun e => !b || p e) := by
  cases b
  · simp
  · simp

theorem dateFilter_ok (cmp : Nat → Bool) (es : List Entry)
    (h : ∀ e ∈ es, strTruthy e.timestamp = true →
      (parseIsoDate (take10 (e.timestamp.getD ""))).isSome) :
    dateFilter cmp es = .ok (es.filter (datePass cmp)) := by
  induction es with
  | nil => rfl
  | cons e rest ih =>
    have hrest : ∀ x ∈ rest, strTruthy x.timestamp = true →
        (parseIsoDate (take10 (x.timestamp.getD ""))).isSome :=
      fun x hx => h x (List.mem_cons_of_mem _ hx)
    by_cases ht : strTruthy e.timestamp = true
    · obtain ⟨x, hx⟩ := Option.isSome_iff_exists.mp
        (h e (List.mem_cons_self _ _) ht)
      cases hc : cmp x
      · simp [dateFilter, ht, hx, ih hrest, except_bind_ok, except_pure,
          datePass, entryDate, List.filter_cons, hc]
      · simp [dateFilter, ht, hx, ih hrest, except_bind_ok, except_pure,
          datePass, entryDate, List.filter_cons, hc]
    · -- falsy timestamp: the guard fails, the entry is dropped
      have hb : strTruthy e.timestamp = false := by simpa using ht
      simp [dateFilter, hb, ih hrest, datePass, entryDate, List.filter_cons]

/-- C2 (amended): a nonempty malformed date raises the `ValueError` of
`_parse_date`, whose message names the offending value and the `YYYY-MM-DD`
format; supplied as `--since`, or as `--until` when the since criterion and
the entry dates it inspects are well formed, it aborts the filtering
invocation with that message; but a reminder value is stored by the payload
builder unvalidated. -/
theorem date_validation_spec (s : String) (hne : s ≠ "")
    (hbad : parseIsoDate s = none) :
    parse_date (some s)
        = .error ("date must be in YYYY-MM-DD form, got " ++ pyRepr s)
    ∧ (∃ pre post,
        "date must be in YYYY-MM-DD form, got " ++ pyRepr s = pre ++ (s ++ post))
    ∧ (∃ pre post,
        "date must be in YYYY-MM-DD form, got " ++ pyRepr s
          = pre ++ ("YYYY-MM-DD" ++ post))
    ∧ (∀ (es : List Entry) (args : ListArgs), args.since = some s →
        filter_entries es args
          = .error ("date must be in YYYY-MM-DD form, got " ++ pyRepr s))
    ∧ (∀ (es : List Entry) (args : ListArgs) (sinceD : Option Nat),
        args.untilArg = some s →
        parse_date args.since = .ok sinceD →
        (∀ e ∈ es, strTruthy e.timestamp = true →
          (parseIsoDate (take10 (e.timestamp.getD ""))).isSome) →
        filter_entries es args
          = .error ("date must be in YYYY-MM-DD form, got " ++ pyRepr s))
    ∧ (∀ (title body mood tags now : String) (ts : Option String),
        (build_entry_payload title body mood tags (some s) ts now).reminder
          = some s) := by
  have hemp : s.isEmpty = false := by
    cases hv : s.isEmpty
    · rfl
    · exact absurd (String.isEmpty_iff s |>.mp hv) hne
  have h1 : parse_date (some s)
      = .error ("date must be in YYYY-MM-DD form, got " ++ pyRepr s) := by
    simp [parse_date, strTruthy, hemp, hbad]
  refine ⟨h1, ?_, ?_, ?_, ?_, fun _ _ _ _ _ _ => rfl⟩
  · refine ⟨"date must be in YYYY-MM-DD form, got " ++ squote, squote, ?_⟩
    rw [pyRepr, String.append_assoc, String.append_assoc]
  · refine ⟨"date must be in ", " form, got " ++ pyRepr s, ?_⟩
    rw [show ("date must be in YYYY-MM-DD form, got " : String)
        = "date must be in " ++ "YYYY-MM-DD" ++ " form, got " from rfl]
    rw [String.append_assoc, String.append_assoc]
  · intro es args hsince
    unfold filter_entries
    rw [hsince, h1]
    rfl
  · intro es args sinceD huntil hsince hdates
    have hmem2 : ∀ (p q : Entry → Bool), ∀ e ∈ (es.filter p).filter q,
        strTruthy e.timestamp = true →
          (parseIsoDate (take10 (e.timestamp.getD ""))).isSome :=
      fun p q e he => hdates e (List.mem_of_mem_filter (List.mem_of_mem_filter he))
    cases sinceD with
    | none =>
      simp only [filter_entries, hsince, huntil, except_bind_ok, except_pure,
        h1, except_bind_error]
    | some d =>
      simp only [filter_entries, hsince, huntil, except_bind_ok, except_pure,
        filter_guard, dateFilter_ok _ _ (hmem2 _ _), h1, except_bind_error]

/-- Witness for C2 at the concrete malformed value "bogus": the parse error,
an aborted invocation with "bogus" as `--until`, and the unvalidated stored
reminder. -/
theorem date_validation_spec_witness :
    parse_date (some "bogus")
        = .error ("date must be in YYYY-MM-DD form, got " ++ pyRepr "bogus")
    ∧ filter_entries
        [⟨"a", "", some "calm", some "2024-03-05T10:00:00", ["work"], none, none⟩]
        { mood := none, tag := none, since := some "2024-03-01",
          untilArg := some "bogus", limit := 10 }
        = .error ("date must be in YYYY-MM-DD form, got " ++ pyRepr "bogus")
    ∧ (build_entry_payload "t" "b" "neutral" "" (some "bogus") none
        "2024-01-01T00:00:00").reminder = some "bogus" :=
  ⟨(date_validation_spec "bogus" (by decide) (by rfl)).1,
   (date_validation_spec "bogus" (by decide) (by rfl)).2.2.2.2.1
     [⟨"a", "", some "calm", some "2024-03-05T10:00:00", ["work"], none, none⟩]
     { mood := none, tag := none, since := some "2024-03-01",
       untilArg := some "bogus", limit := 10 }
     (some (ymdToOrdinal 2024 3 1)) (by rfl) (by rfl) (by decide),
   (date_validation_spec "bogus" (by decide) (by rfl)).2.2.2.2.2
     "t" "b" "neutral" "" "2024-01-01T00:00:00" none⟩

/-- Counterexample to C2 as stated: a malformed reminder supplied to the
`add` command is not rejected — the invocation succeeds and the malformed
value is stored in the saved entry. -/
theorem malformed_reminder_stored_cex :
    parseIsoDate "not-a-date" = none
    ∧ add_command "t" "b" "neutral" "" (some "not-a-date")
        "2024-01-01T00:00:00" (.content [])
      = .ok (.content
          [{ title := "t", body := "b", mood := some "neutral",
             timestamp := some "2024-01-01T00:00:00", tags := [],
             reminder := some "not-a-date", status := none }]) :=
  ⟨rfl, rfl⟩

/-- Composition of the four optional predicates of `_filter_entries` into one
pass, before the limit step: the four successive filters select exactly the
entries matching the combined criteria, in input order. -/
theorem filters_ok (es : List Entry) (args : ListArgs) (sinceD untilD : Option Nat)
    (hs : parse_date args.since = .ok sinceD)
    (hu : parse_date args.untilArg = .ok untilD)
    (hdates : ∀ e ∈ es, strTruthy e.timestamp = true →
      (parseIsoDate (take10 (e.timestamp.getD ""))).isSome) :
    filter_entries es args
      = .ok (if args.limit ≠ 0 then
          pySliceTo args.limit
            (es.filter (matchesCriteria args.mood args.tag sinceD untilD))
        else es.filter (matchesCriteria args.mood args.tag sinceD untilD)) := by
  have hmem1 : ∀ (p : Entry → Bool), ∀ e ∈ es.filter p,
      strTruthy e.timestamp = true →
        (parseIsoDate (take10 (e.timestamp.getD ""))).isSome :=
    fun p e he => hdates e (List.mem_of_mem_filter he)
  have hmem2 : ∀ (p q : Entry → Bool), ∀ e ∈ (es.filter p).filter q,
      strTruthy e.timestamp = true →
        (parseIsoDate (take10 (e.timestamp.getD ""))).isSome :=
    fun p q e he => hdates e (List.mem_of_mem_filter (List.mem_of_mem_filter he))
  have hmem3 : ∀ (p q r : Entry → Bool), ∀ e ∈ ((es.filter p).filter q).filter r,
      strTruthy e.timestamp = true →
        (parseIsoDate (take10 (e.timestamp.getD ""))).isSome :=
    fun p q r e he =>
      hdates e (List.mem_of_mem_filter (List.mem_of_mem_filter
        (List.mem_of_mem_filter he)))
  cases sinceD with
  | none =>
    cases untilD with
    | none =>
      have hF : (es.filter (fun e => !strTruthy args.mood || e.mood == args.mood)).filter
          (fun e => !strTruthy args.tag || e.tags.contains (args.tag.getD ""))
          = es.filter (matchesCriteria args.mood args.tag none none) := by
        rw [List.filter_filter]
        apply List.filter_congr
        intro a _
        simp only [matchesCriteria, Bool.and_true]
        cases hA : (!strTruthy args.mood || a.mood == args.mood) <;>
          cases hB : (!strTruthy args.tag || a.tags.contains (args.tag.getD "")) <;>
            rfl
      simp only [filter_entries, hs, hu, except_bind_ok, except_pure,
        filter_guard, hF]
    | some d2 =>
      have hF : ((es.filter (fun e => !strTruthy args.mood || e.mood == args.mood)).filter
          (fun e => !strTruthy args.tag || e.tags.contains (args.tag.getD ""))).filter
          (datePass (fun x => decide (x ≤ d2)))
          = es.filter (matchesCriteria args.mood args.tag none (some d2)) := by
        rw [List.filter_filter, List.filter_filter]
        apply List.filter_congr
        intro a _
        simp only [matchesCriteria, Bool.and_true]
        cases hA : (!strTruthy args.mood || a.mood == args.mood) <;>
          cases hB : (!strTruthy args.tag || a.tags.contains (args.tag.getD "")) <;>
            cases hD : datePass (fun x => decide (x ≤ d2)) a <;> rfl
      simp only [filter_entries, hs, hu, except_bind_ok, except_pure, filter_guard,
        dateFilter_ok _ _ (hmem2 _ _), hF]
  | some d =>
    cases untilD with
    | none =>
      have hF : ((es.filter (fun e => !strTruthy args.mood || e.mood == args.mood)).filter
          (fun e => !strTruthy args.tag || e.tags.contains (args.tag.getD ""))).filter
          (datePass (fun x => decide (d ≤ x)))
          = es.filter (matchesCriteria args.mood args.tag (some d) none) := by
        rw [List.filter_filter, List.filter_filter]
        apply List.filter_congr
        intro a _
        simp only [matchesCriteria, Bool.and_true]
        cases hA : (!strTruthy args.mood || a.mood == args.mood) <;>
          cases hB : (!strTruthy args.tag || a.tags.contains (args.tag.getD "")) <;>
            cases hC : datePass (fun x => decide (d ≤ x)) a <;> rfl
      simp only [filter_entries, hs, hu, except_bind_ok, except_pure, filter_guard,
        dateFilter_ok _ _ (hmem2 _ _), hF]
    | some d2 =>
      have hF : (((es.filter (fun e => !strTruthy args.mood || e.mood == args.mood)).filter
          (fun e => !strTruthy args.tag || e.tags.contains (args.tag.getD ""))).filter
          (datePass (fun x => decide (d ≤ x)))).filter
          (datePass (fun x => decide (x ≤ d2)))
          = es.filter (matchesCriteria args.mood args.tag (some d) (some d2)) := by
        rw [List.filter_filter, List.filter_filter, List.filter_filter]
        apply List.filter_congr
        intro a _
        simp only [matchesCriteria]
        cases hA : (!strTruthy args.mood || a.mood == args.mood) <;>
          cases hB : (!strTruthy args.tag || a.tags.contains (args.tag.getD "")) <;>
            cases hC : datePass (fun x => decide (d ≤ x)) a <;>
              cases hD : datePass (fun x => decide (x ≤ d2)) a <;> rfl
      simp only [filter_entries, hs, hu, except_bind_ok, except_pure, filter_guard,
        dateFilter_ok _ _ (hmem2 _ _), dateFilter_ok _ _ (hmem3 _ _ _), hF]

/-- C5: with parseable criteria and entry dates and a positive limit,
filtering selects exactly the entries passing the conjunction of the
mood-equality, tag-membership and inclusive first-ten-character date-range
predicates — each vacuous when absent — in input order, truncated to the
limit count. -/
theorem filter_entries_spec (es : List Entry) (args : ListArgs)
    (sinceD untilD : Option Nat)
    (hs : parse_date args.since = .ok sinceD)
    (hu : parse_date args.untilArg = .ok untilD)
    (hdates : ∀ e ∈ es, strTruthy e.timestamp = true →
      (parseIsoDate (take10 (e.timestamp.getD ""))).isSome)
    (hlim : 0 < args.limit) :
    filter_entries es args
      = .ok ((es.filter (matchesCriteria args.mood args.tag sinceD untilD)).take
          args.limit.toNat) := by
  rw [filters_ok es args sinceD untilD hs hu hdates]
  rw [if_pos (show args.limit ≠ 0 by omega)]
  unfold pySliceTo
  rw [if_pos (show (0 : Int) ≤ args.limit by omega)]

/-- Witness for C5 on a concrete three-entry store with every criterion set. -/
theorem filter_entries_spec_witness :
    filter_entries
      [⟨"a", "", some "calm", some "2024-03-05T10:00:00", ["work"], none, none⟩,
       ⟨"b", "", some "calm", some "2024-02-01T10:00:00", ["work"], none, none⟩,
       ⟨"c", "", some "busy", some "2024-03-06T10:00:00", ["work"], none, none⟩]
      { mood := some "calm", tag := some "work", since := some "2024-03-01",
        untilArg := some "2024-03-31", limit := 10 }
      = .ok (([⟨"a", "", some "calm", some "2024-03-05T10:00:00", ["work"], none, none⟩,
          ⟨"b", "", some "calm", some "2024-02-01T10:00:00", ["work"], none, none⟩,
          ⟨"c", "", some "busy", some "2024-03-06T10:00:00", ["work"], none, none⟩].filter
            (matchesCriteria (some "calm") (some "work")
              (some (ymdToOrdinal 2024 3 1)) (some (ymdToOrdinal 2024 3 31)))).take
          (10 : Int).toNat) :=
  filter_entries_spec _ _ (some (ymdToOrdinal 2024 3 1))
    (some (ymdToOrdinal 2024 3 31)) (by rfl) (by rfl) (by decide) (by decide)

/-- C10: a limit of 0 is falsy in Python, so the truncation step is skipped
and every entry passing the other criteria is returned. -/
theorem filter_entries_zero_limit (es : List Entry) (args : ListArgs)
    (sinceD untilD : Option Nat)
    (hs : parse_date args.since = .ok sinceD)
    (hu : parse_date args.untilArg = .ok untilD)
    (hdates : ∀ e ∈ es, strTruthy e.timestamp = true →
      (parseIsoDate (take10 (e.timestamp.getD ""))).isSome)
    (hlim : args.limit = 0) :
    filter_entries es args
      = .ok (es.filter (matchesCriteria args.mood args.tag sinceD untilD)) := by
  rw [filters_ok es args sinceD untilD hs hu hdates]
  rw [if_neg (show ¬(args.limit ≠ 0) by simp [hlim])]

/-- Witness for C10: limit 0 returns all matching entries untruncated. -/
theorem filter_entries_zero_limit_witness :
    filter_entries
      [⟨"a", "", some "calm", some "2024-03-05T10:00:00", ["work"], none, none⟩,
       ⟨"b", "", some "calm", some "2024-02-01T10:00:00", ["work"], none, none⟩]
      { mood := none, tag := none, since := none, untilArg := none, limit := 0 }
      = .ok ([⟨"a", "", some "calm", some "2024-03-05T10:00:00", ["work"], none, none⟩,
          ⟨"b", "", some "calm", some "2024-02-01T10:00:00", ["work"], none, none⟩].filter
            (matchesCriteria none none none none)) :=
  filter_entries_zero_limit _ _ none none (by rfl) (by rfl) (by decide) (by rfl)

/-- C3: with all present reminders parseable, the reminder partition returns
exactly the entries whose reminder date is strictly before today (overdue,
regardless of the window) and those on/after today and within the window
(upcoming); entries beyond a set window or without a reminder appear in
neither list; both partitions are filters of the input, so they preserve the
input's relative order. -/
theorem plan_reminders_spec (es : List Entry) (today : Nat) (days : Option Int)
    (h : ∀ e ∈ es, strTruthy e.reminder = true →
      (parseIsoDate (e.reminder.getD "")).isSome) :
    plan_reminders es today days
      = .ok (es.filter (reminderOverdue today),
             es.filter (reminderUpcoming today days)) := by
  induction es with
  | nil => rfl
  | cons e rest ih =>
    have hrest : ∀ x ∈ rest, strTruthy x.reminder = true →
        (parseIsoDate (x.reminder.getD "")).isSome :=
      fun x hx => h x (List.mem_cons_of_mem _ hx)
    by_cases ht : strTruthy e.reminder = true
    · obtain ⟨r, hr⟩ := Option.isSome_iff_exists.mp
        (h e (List.mem_cons_self _ _) ht)
      by_cases hlt : r < today
      · simp [plan_reminders, ht, hr, ih hrest, except_bind_ok, except_pure,
          reminderOverdue, reminderUpcoming, List.filter_cons, hlt]
      · cases hw : withinWindow r today days
        · simp [plan_reminders, ht, hr, ih hrest, except_bind_ok, except_pure,
            reminderOverdue, reminderUpcoming, List.filter_cons, hlt, hw]
        · simp [plan_reminders, ht, hr, ih hrest, except_bind_ok, except_pure,
            reminderOverdue, reminderUpcoming, List.filter_cons, hlt, hw]
    · have hb : strTruthy e.reminder = false := by simpa using ht
      simp [plan_reminders, hb, ih hrest, reminderOverdue, reminderUpcoming,
        List.filter_cons]

/-- Witness for C3: an overdue, an upcoming, a beyond-window and a
reminder-less entry, with today 2024-06-15 and a 30-day window. -/
theorem plan_reminders_spec_witness :
    plan_reminders
      [⟨"over", "", some "m", none, [], some "2024-06-01", none⟩,
       ⟨"up", "", some "m", none, [], some "2024-06-20", none⟩,
       ⟨"far", "", some "m", none, [], some "2024-12-31", none⟩,
       ⟨"none", "", some "m", none, [], none, none⟩]
      (ymdToOrdinal 2024 6 15) (some 30)
      = .ok ([⟨"over", "", some "m", none, [], some "2024-06-01", none⟩,
           ⟨"up", "", some "m", none, [], some "2024-06-20", none⟩,
           ⟨"far", "", some "m", none, [], some "2024-12-31", none⟩,
           ⟨"none", "", some "m", none, [], none, none⟩].filter
             (reminderOverdue (ymdToOrdinal 2024 6 15)),
          [⟨"over", "", some "m", none, [], some "2024-06-01", none⟩,
           ⟨"up", "", some "m", none, [], some "2024-06-20", none⟩,
           ⟨"far", "", some "m", none, [], some "2024-12-31", none⟩,
           ⟨"none", "", some "m", none, [], none, none⟩].filter
             (reminderUpcoming (ymdToOrdinal 2024 6 15) (some 30))) :=
  plan_reminders_spec _ (ymdToOrdinal 2024 6 15) (some 30) (by decide)

/- Scan behavior of the spec-modelled status update. -/

theorem scanSetStatus_fst (ts status : String) (es : List Entry) :
    (scanSetStatus ts status es).1 = es.any (fun e => e.timestamp == some ts) := by
  induction es with
  | nil => rfl
  | cons e rest ih =>
    cases hm : (e.timestamp == some ts)
    · simp [scanSetStatus, hm, ih]
    · simp [scanSetStatus, hm]

theorem scanSetStatus_nomatch (ts status : String) (es : List Entry)
    (h : ∀ e ∈ es, (e.timestamp == some ts) = false) :
    (scanSetStatus ts status es).2 = es := by
  induction es with
  | nil => rfl
  | cons e rest ih =>
    have he := h e (List.mem_cons_self _ _)
    simp [scanSetStatus, he,
      ih (fun x hx => h x (List.mem_cons_of_mem _ hx))]

theorem scanSetStatus_first (ts status : String) (pre : List Entry) (e : Entry)
    (post : List Entry)
    (hpre : ∀ x ∈ pre, (x.timestamp == some ts) = false)
    (he : (e.timestamp == some ts) = true) :
    (scanSetStatus ts status (pre ++ e :: post)).2
      = pre ++ { e with status := some status } :: post := by
  induction pre with
  | nil => simp [scanSetStatus, he]
  | cons a pre ih =>
    have ha := hpre a (List.mem_cons_self _ _)
    simp [scanSetStatus, ha,
      ih (fun x hx => hpre x (List.mem_cons_of_mem _ hx))]

/-- C1 (spec-modelled): `set_entry_status` loads the entries, returns true
exactly when some loaded entry's timestamp equals the given value, and saves
the collection in which only the first matching entry has its status set; a
collection with no match is saved unchanged. -/
theorem set_entry_status_spec (ts status : String) (st : FileState)
    (es : List Entry) (h : load_entries st = .ok es) :
    set_entry_status ts status st
        = .ok (es.any (fun e => e.timestamp == some ts),
               .content (scanSetStatus ts status es).2)
    ∧ ((∀ e ∈ es, (e.timestamp == some ts) = false) →
        (scanSetStatus ts status es).2 = es)
    ∧ (∀ pre e post, es = pre ++ e :: post →
        (∀ x ∈ pre, (x.timestamp == some ts) = false) →
        (e.timestamp == some ts) = true →
        (scanSetStatus ts status es).2
          = pre ++ { e with status := some status } :: post) := by
  refine ⟨?_, scanSetStatus_nomatch ts status es, ?_⟩
  · unfold set_entry_status
    rw [h, except_bind_ok, ← scanSetStatus_fst ts status es]
    rfl
  · intro pre e post heq hpre he
    rw [heq]
    exact scanSetStatus_first ts status pre e post hpre he

/-- Witness for C1: completing the sample entry by its timestamp flips its
status to done and reports success. -/
theorem set_entry_status_spec_witness :
    set_entry_status "2023-03-23T05:00:00" "done" (.content [sampleEntry])
        = .ok ([sampleEntry].any
            (fun e => e.timestamp == some "2023-03-23T05:00:00"),
          .content (scanSetStatus "2023-03-23T05:00:00" "done" [sampleEntry]).2)
    ∧ (scanSetStatus "2023-03-23T05:00:00" "done" [sampleEntry]).2
        = [] ++ { sampleEntry with status := some "done" } :: [] :=
  ⟨(set_entry_status_spec "2023-03-23T05:00:00" "done"
      (.content [sampleEntry]) [sampleEntry] (by rfl)).1,
   (set_entry_status_spec "2023-03-23T05:00:00" "done"
      (.content [sampleEntry]) [sampleEntry] (by rfl)).2.2
     [] sampleEntry [] (by rfl) (by simp) (by decide)⟩

/-- C6: loading immediately after saving a collection returns that collection
re-sorted by timestamp descending — a permutation of the saved entries,
arranged in timestamp-descending order. -/
theorem load_after_save_spec (X : List Entry) (st : FileState) :
    load_entries (save_entries X st) = .ok (sortDesc X)
    ∧ (sortDesc X).Perm X
    ∧ List.Sorted keyDesc (sortDesc X) :=
  ⟨rfl, List.perm_insertionSort keyDesc X, List.sorted_insertionSort keyDesc X⟩

/-- C9: loading a missing file first creates an empty collection document and
returns no entries; loading an existing parseable file returns its entries
sorted by timestamp descending; the load fails (with the uncaught
`StorageCorruption` parse failure) exactly when the file contents are not
valid structured data. -/
theorem load_entries_store_spec :
    load_entries .missing = .ok []
    ∧ ensure_logbook .missing = .content []
    ∧ (∀ l, load_entries (.content l) = .ok (sortDesc l)
        ∧ (sortDesc l).Perm l ∧ List.Sorted keyDesc (sortDesc l))
    ∧ load_entries .corrupt = .error "StorageCorruption"
    ∧ (∀ st, isOkB (load_entries st) = decide (st ≠ .corrupt)) := by
  refine ⟨rfl, rfl, ?_, rfl, ?_⟩
  · intro l
    exact ⟨rfl, List.perm_insertionSort keyDesc l,
      List.sorted_insertionSort keyDesc l⟩
  · intro st
    cases st <;> simp [isOkB, load_entries, ensure_logbook]

/-- Witness for C7: the first tag of the spec's example is nonempty and
strip-idempotent, per the general statement. -/
theorem normalize_tags_spec_witness :
    "research" ≠ "" ∧ pyStrip "research" = "research" :=
  (normalize_tags_spec.1 "  research,api , , curiosity   ").1 "research"
    (by decide)

/-- Witness for C8: the summary of the spec's example holds count 2 under
"curious", per the general statement. -/
theorem summarize_moods_spec_witness :
    moodCount
      (summarize_moods
        [⟨"", "", some "curious", none, [], none, none⟩,
         ⟨"", "", some "curious", none, [], none, none⟩,
         ⟨"", "", some "tired", none, [], none, none⟩,
         ⟨"", "", none, none, [], none, none⟩]) "curious"
      = List.countP (fun e => e.mood.getD "neutral" == "curious")
          ([⟨"", "", some "curious", none, [], none, none⟩,
            ⟨"", "", some "curious", none, [], none, none⟩,
            ⟨"", "", some "tired", none, [], none, none⟩,
            ⟨"", "", none, none, [], none, none⟩] : List Entry) :=
  (summarize_moods_spec.1
    [⟨"", "", some "curious", none, [], none, none⟩,
     ⟨"", "", some "curious", none, [], none, none⟩,
     ⟨"", "", some "tired", none, [], none, none⟩,
     ⟨"", "", none, none, [], none, none⟩] "curious").1

end SwanSong
